import Mathlib

/-!
Verification of the matching and conversation subsystem of the educlove
backend (matching repository, conversation repository with the bucket
pattern, random candidate selection).

Modelling conventions, used throughout:
- Mongo ObjectId values (document ids, profile ids, match ids) are modelled
  as natural numbers; the string form used by the Python layer is an
  injective encoding of the ObjectId, so equality of the strings coincides
  with equality of the naturals.
- A Mongo collection is modelled as a Lean list of documents in natural
  (insertion) order.  `find_one` without a sort returns the first document
  in natural order matching the filter; `insert_one` appends; `update_one`
  rewrites the first matching document.  `modified_count` is positive
  exactly when a document matched, because every update in this code also
  sets an `updated_at` timestamp, which always changes the document.
- Optional string fields (Python `None`) are `Option String`.
- Wall-clock timestamps (`created_at`, `updated_at`, message `datetime`)
  are not modelled: no claim verified here depends on their values, only on
  positional (insertion) order.
-/

namespace EducLove

/-- Match status values, from `backend/constants.py` (`class MatchStatus`). -/
inductive MatchStatus where
  | PENDING
  | ACCEPTED
  | REJECTED
  | BLOCKED
deriving DecidableEq, Repr

/-- One document of the `matches` collection (see
`MatchesRepository.create_match` for the fields written). -/
structure MatchRecord where
  id : Nat
  initiator_profile_id : Nat
  target_profile_id : Nat
  status : MatchStatus
  initial_message : Option String
deriving DecidableEq, Repr

/-- The `matches` collection, in natural (insertion) order. -/
abbrev MatchDb := List MatchRecord

/-- `MatchesRepository.find_match`: `find_one` on the directed pair
(initiator, target), returning the first document in natural order that
matches the filter. -/
def find_match (db : MatchDb) (initiator_profile_id target_profile_id : Nat) :
    Option MatchRecord :=
  match db with
  | [] => none
  | m :: rest =>
    if m.initiator_profile_id = initiator_profile_id ∧
       m.target_profile_id = target_profile_id then some m
    else find_match rest initiator_profile_id target_profile_id

/-- `MatchesRepository.find_reverse_match`: `find_one` with
initiator = target_profile_id and target = current_profile_id, which is the
same query as `find_match` with the two profile ids swapped. -/
def find_reverse_match (db : MatchDb) (current_profile_id target_profile_id : Nat) :
    Option MatchRecord :=
  find_match db target_profile_id current_profile_id

/-- A fresh Mongo id for an insert: one larger than every id already in the
collection. -/
def freshId (db : MatchDb) : Nat :=
  (db.map (fun m => m.id)).foldr max 0 + 1

/-- `MatchesRepository.create_match` with the default status (PENDING):
`insert_one` appends the new document; the new id is returned. -/
def create_match (db : MatchDb) (initiator_profile_id target_profile_id : Nat)
    (initial_message : Option String) : MatchDb × Nat :=
  let newId := freshId db
  (db ++ [{ id := newId
            initiator_profile_id := initiator_profile_id
            target_profile_id := target_profile_id
            status := MatchStatus.PENDING
            initial_message := initial_message }], newId)

/-- `MatchesRepository.update_match_status_by_profiles`: `update_one` on the
directed pair, setting the status on the first matching document; the Bool
is `modified_count > 0`. -/
def update_match_status_by_profiles (db : MatchDb)
    (initiator_profile_id target_profile_id : Nat) (status : MatchStatus) :
    MatchDb × Bool :=
  match db with
  | [] => ([], false)
  | m :: rest =>
    if m.initiator_profile_id = initiator_profile_id ∧
       m.target_profile_id = target_profile_id then
      ({ m with status := status } :: rest, true)
    else
      let r := update_match_status_by_profiles rest
        initiator_profile_id target_profile_id status
      (m :: r.1, r.2)

/-- The `action` tag of the dictionary returned by
`MatchesRepository.handle_like`. -/
inductive LikeAction where
  | already_liked
  | mutual_match
  | like_sent
  | error
deriving DecidableEq, Repr

/-- The dictionary returned by `MatchesRepository.handle_like`; fields that a
given branch does not put in the dictionary are `none`. -/
structure LikeResult where
  action : LikeAction
  match_id : Option Nat := none
  status : Option MatchStatus := none
  reverse_match_message : Option String := none
  current_message : Option String := none
  initial_message : Option String := none
deriving DecidableEq, Repr

/-- The fall-through branch of `MatchesRepository.handle_like`: no usable
reverse match, so a new PENDING match is created. -/
def handle_like_create (db : MatchDb) (current_profile_id target_profile_id : Nat)
    (message : Option String) : MatchDb × LikeResult :=
  let r := create_match db current_profile_id target_profile_id message
  (r.1, { action := LikeAction.like_sent
          match_id := some r.2
          status := some MatchStatus.PENDING
          initial_message := message })

/-- `MatchesRepository.handle_like`: idempotence check, then reverse-match
reconciliation, then creation of a new PENDING match. -/
def handle_like (db : MatchDb) (current_profile_id target_profile_id : Nat)
    (message : Option String) : MatchDb × LikeResult :=
  match find_match db current_profile_id target_profile_id with
  | some existing_match =>
    (db, { action := LikeAction.already_liked
           match_id := some existing_match.id
           status := some existing_match.status })
  | none =>
    match find_reverse_match db current_profile_id target_profile_id with
    | some reverse_match =>
      if reverse_match.status = MatchStatus.PENDING then
        let r := update_match_status_by_profiles db
          target_profile_id current_profile_id MatchStatus.ACCEPTED
        if r.2 then
          (r.1, { action := LikeAction.mutual_match
                  match_id := some reverse_match.id
                  status := some MatchStatus.ACCEPTED
                  reverse_match_message := reverse_match.initial_message
                  current_message := message })
        else
          (r.1, { action := LikeAction.error })
      else
        handle_like_create db current_profile_id target_profile_id message
    | none => handle_like_create db current_profile_id target_profile_id message

theorem update_found_spec (i t : Nat) (s : MatchStatus) :
    ∀ (db : MatchDb) (m : MatchRecord), find_match db i t = some m →
      ∃ db', update_match_status_by_profiles db i t s = (db', true) ∧
        db'.length = db.length ∧
        find_match db' i t = some { m with status := s } ∧
        (∀ c d, (c ≠ i ∨ d ≠ t) → find_match db' c d = find_match db c d) := by
  intro db
  induction db with
  | nil => intro m h; simp [find_match] at h
  | cons x rest ih =>
    intro m h
    by_cases hp : x.initiator_profile_id = i ∧ x.target_profile_id = t
    · rw [find_match, if_pos hp, Option.some.injEq] at h
      subst h
      refine ⟨{ x with status := s } :: rest, ?_, ?_, ?_, ?_⟩
      · rw [update_match_status_by_profiles, if_pos hp]
      · simp
      · rw [find_match, if_pos]
        exact hp
      · intro c d hcd
        have hxc : ¬(x.initiator_profile_id = c ∧ x.target_profile_id = d) := by
          rintro ⟨h1, h2⟩
          rcases hcd with hc | hd
          · exact hc (h1.symm.trans hp.1)
          · exact hd (h2.symm.trans hp.2)
        rw [find_match, if_neg hxc, find_match, if_neg hxc]
    · rw [find_match, if_neg hp] at h
      obtain ⟨db', hu, hlen, hfind, hother⟩ := ih m h
      refine ⟨x :: db', ?_, ?_, ?_, ?_⟩
      · rw [update_match_status_by_profiles, if_neg hp]
        simp only [hu]
      · simp [hlen]
      · rw [find_match, if_neg hp]
        exact hfind
      · intro c d hcd
        by_cases hxc : x.initiator_profile_id = c ∧ x.target_profile_id = d
        · rw [find_match, if_pos hxc, find_match, if_pos hxc]
        · rw [find_match, if_neg hxc, find_match, if_neg hxc]
          exact hother c d hcd

/-- C2: liking an already-liked target is idempotent: when a match
current -> target already exists, `handle_like` returns `already_liked`
carrying the id and current status of the existing match, and leaves the
match collection completely unchanged. -/
theorem handle_like_idempotent (db : MatchDb) (p t : Nat) (msg : Option String)
    (m : MatchRecord) (h : find_match db p t = some m) :
    handle_like db p t msg =
      (db, { action := LikeAction.already_liked
             match_id := some m.id
             status := some m.status }) := by
  unfold handle_like
  rw [h]

/-- Witness for C2 on a concrete store. -/
theorem handle_like_idempotent_witness :
    handle_like [{ id := 1, initiator_profile_id := 10, target_profile_id := 20,
                   status := MatchStatus.PENDING, initial_message := some "Hi" }]
        10 20 (some "again") =
      ([{ id := 1, initiator_profile_id := 10, target_profile_id := 20,
          status := MatchStatus.PENDING, initial_message := some "Hi" }],
       { action := LikeAction.already_liked
         match_id := some 1
         status := some MatchStatus.PENDING }) :=
  handle_like_idempotent _ 10 20 (some "again")
    { id := 1, initiator_profile_id := 10, target_profile_id := 20,
      status := MatchStatus.PENDING, initial_message := some "Hi" }
    (by decide)

/-- C1: a reverse like resolves to a mutual match: if a match A -> B exists
with status PENDING and no match B -> A exists, then liking A from B returns
`mutual_match` with the id of the existing A -> B match and its stored
initial message as `reverse_match_message`; the A -> B record itself becomes
ACCEPTED, no B -> A record is created, and the collection keeps its size. -/
theorem handle_like_mutual (db : MatchDb) (a b : Nat) (msg : Option String)
    (m : MatchRecord) (hAB : find_match db a b = some m)
    (hP : m.status = MatchStatus.PENDING)
    (hBA : find_match db b a = none) :
    ∃ db', handle_like db b a msg =
        (db', { action := LikeAction.mutual_match
                match_id := some m.id
                status := some MatchStatus.ACCEPTED
                reverse_match_message := m.initial_message
                current_message := msg }) ∧
      find_match db' a b = some { m with status := MatchStatus.ACCEPTED } ∧
      find_match db' b a = none ∧
      db'.length = db.length := by
  have hab : a ≠ b := by
    intro he
    subst he
    rw [hAB] at hBA
    exact Option.some_ne_none m hBA
  obtain ⟨db', hu, hlen, hfind, hother⟩ :=
    update_found_spec a b MatchStatus.ACCEPTED db m hAB
  refine ⟨db', ?_, hfind, ?_, hlen⟩
  · unfold handle_like
    rw [hBA]
    unfold find_reverse_match
    rw [hAB]
    simp only [hP, if_true, hu]
  · rw [hother b a (Or.inl (Ne.symm hab))]
    exact hBA

/-- Witness for C1 on a concrete store. -/
theorem handle_like_mutual_witness :
    ∃ db', handle_like
        [{ id := 1, initiator_profile_id := 10, target_profile_id := 20,
           status := MatchStatus.PENDING, initial_message := some "Hi" }]
        20 10 (some "Hi back") =
        (db', { action := LikeAction.mutual_match
                match_id := some 1
                status := some MatchStatus.ACCEPTED
                reverse_match_message := some "Hi"
                current_message := some "Hi back" }) ∧
      find_match db' 10 20 = some
        { id := 1, initiator_profile_id := 10, target_profile_id := 20,
          status := MatchStatus.ACCEPTED, initial_message := some "Hi" } ∧
      find_match db' 20 10 = none ∧
      db'.length = 1 :=
  handle_like_mutual _ 10 20 (some "Hi back")
    { id := 1, initiator_profile_id := 10, target_profile_id := 20,
      status := MatchStatus.PENDING, initial_message := some "Hi" }
    (by decide) (by decide) (by decide)

/-! ## Conversation store (`ConversationsRepository`, bucket pattern) -/

/-- `MESSAGES_PER_BUCKET` from `conversations.py`: maximum messages per
bucket. -/
def MESSAGES_PER_BUCKET : Nat := 100

/-- One entry of the `messages` array of a bucket (the `datetime` field is
not modelled; message order is insertion order). -/
structure Message where
  sender_profile_id : Nat
  sender_name : String
  content : String
deriving DecidableEq, Repr

/-- One document of the `conversations` collection: a bucket of at most
`MESSAGES_PER_BUCKET` messages.  `message_count` is a stored field, not a
derived one, exactly as in the Mongo documents. -/
structure Bucket where
  match_id : Nat
  bucket_number : Nat
  message_count : Nat
  messages : List Message
deriving DecidableEq, Repr

/-- The `conversations` collection, in natural (insertion) order. -/
abbrev ConvDb := List Bucket

/-- `ConversationsRepository.create_conversation`: insert bucket number 1
holding the single first message. -/
def create_conversation (db : ConvDb) (match_id sender_profile_id : Nat)
    (sender_name message_content : String) : ConvDb :=
  db ++ [{ match_id := match_id
           bucket_number := 1
           message_count := 1
           messages := [{ sender_profile_id := sender_profile_id
                          sender_name := sender_name
                          content := message_content }] }]

/-- One step of scanning for the bucket with the largest bucket_number:
keeps the earlier document on ties, which models `find_one` with a
descending sort returning, among tied documents, the first one in natural
order. -/
def latestStep (acc : Option Bucket) (b : Bucket) : Option Bucket :=
  match acc with
  | none => some b
  | some a => if a.bucket_number < b.bucket_number then some b else acc

/-- The `find_one({match_id}, sort=[(bucket_number, -1)])` query used by
`ConversationsRepository.add_message`. -/
def latest_bucket (db : ConvDb) (match_id : Nat) : Option Bucket :=
  (db.filter (fun b => b.match_id == match_id)).foldl latestStep none

/-- `update_one({_id: old._id}, ...)` given that `old` is a document of the
collection: rewrite the first occurrence of `old`.  (Document ids are
unique, so the first value-equal occurrence is the queried document.) -/
def updateBucket (db : ConvDb) (old new : Bucket) : ConvDb :=
  match db with
  | [] => []
  | b :: rest => if b = old then new :: rest else b :: updateBucket rest old new

/-- `ConversationsRepository.add_message`: find the latest bucket; create
the conversation if none, open a fresh bucket if it is full, otherwise push
the message and increment the stored count in place.  The Bool is the
success value returned by the Python method. -/
def add_message (db : ConvDb) (match_id sender_profile_id : Nat)
    (sender_name message_content : String) : ConvDb × Bool :=
  match latest_bucket db match_id with
  | none =>
    (create_conversation db match_id sender_profile_id sender_name message_content,
     true)
  | some lb =>
    if MESSAGES_PER_BUCKET ≤ lb.message_count then
      (db ++ [{ match_id := match_id
                bucket_number := lb.bucket_number + 1
                message_count := 1
                messages := [{ sender_profile_id := sender_profile_id
                               sender_name := sender_name
                               content := message_content }] }], true)
    else
      (updateBucket db lb
        { lb with
          message_count := lb.message_count + 1
          messages := lb.messages ++
            [{ sender_profile_id := sender_profile_id
               sender_name := sender_name
               content := message_content }] }, true)

/-- The ascending `sort(bucket_number, 1)` used by `get_conversation`; a
stable sort, so documents with equal bucket numbers keep natural order. -/
def sortBuckets (bs : List Bucket) : List Bucket :=
  List.insertionSort (fun a b => a.bucket_number ≤ b.bucket_number) bs

/-- `ConversationsRepository.get_conversation`: flatten all buckets in
ascending bucket-number order, then apply the Python truthiness-guarded
pagination (`if skip:` and `if limit:`), so a value of 0 acts like an
absent parameter. -/
def get_conversation (db : ConvDb) (match_id : Nat)
    (limit skip : Option Nat) : List Message :=
  let buckets := sortBuckets (db.filter (fun b => b.match_id == match_id))
  if buckets = [] then []
  else
    let all_messages := (buckets.map (fun b => b.messages)).flatten
    let after_skip :=
      match skip with
      | some (k + 1) => all_messages.drop (k + 1)
      | _ => all_messages
    match limit with
    | some (k + 1) => after_skip.take (k + 1)
    | _ => after_skip

/-- The Python slice `xs[-count:]` for a nonnegative `count` (for
`count = 0` it is `xs[0:]`, the whole list). -/
def pyLastSlice (count : Nat) (xs : List Message) : List Message :=
  if count = 0 then xs else xs.drop (xs.length - count)

/-- The accumulator loop of `get_latest_messages`: prepend each bucket
(walked from the highest number down) until `count` messages are collected,
then trim with the `[-count:]` slice. -/
def latest_go (count : Nat) : List Bucket → List Message → List Message
  | [], acc => acc
  | b :: rest, acc =>
    let messages := b.messages ++ acc
    if count ≤ messages.length then pyLastSlice count messages
    else latest_go count rest messages

/-- `ConversationsRepository.get_latest_messages`: walk buckets in
descending bucket-number order (modelled as the reverse of the stable
ascending order) accumulating a tail of the conversation. -/
def get_latest_messages (db : ConvDb) (match_id : Nat) (count : Nat) :
    List Message :=
  let buckets := (sortBuckets (db.filter (fun b => b.match_id == match_id))).reverse
  if buckets = [] then []
  else latest_go count buckets []

/-- `ConversationsRepository.conversation_exists`. -/
def conversation_exists (db : ConvDb) (match_id : Nat) : Bool :=
  db.any (fun b => b.match_id == match_id)

/-- C9: in `get_conversation` a limit of 0 and a skip of 0 behave exactly
like absent pagination parameters (Python truthiness), returning the full
flattened message list; only strictly positive values restrict the result,
a positive limit taking a prefix and a positive skip dropping a prefix. -/
theorem get_conversation_zero_pagination (db : ConvDb) (match_id : Nat) :
    get_conversation db match_id (some 0) none =
      get_conversation db match_id none none ∧
    get_conversation db match_id none (some 0) =
      get_conversation db match_id none none ∧
    (∀ k, get_conversation db match_id (some (k + 1)) none =
      (get_conversation db match_id none none).take (k + 1)) ∧
    (∀ k, get_conversation db match_id none (some (k + 1)) =
      (get_conversation db match_id none none).drop (k + 1)) := by
  unfold get_conversation
  by_cases hb : sortBuckets (db.filter (fun b => b.match_id == match_id)) = []
  · simp [hb]
  · simp [hb]

theorem latest_go_eq (count : Nat) (hc : 0 < count) :
    ∀ (l : List Bucket) (acc : List Message), acc.length < count →
      latest_go count l acc =
        ((l.reverse.map (fun b => b.messages)).flatten ++ acc).drop
          (((l.reverse.map (fun b => b.messages)).flatten ++ acc).length - count) := by
  intro l
  induction l with
  | nil =>
    intro acc ha
    simp [latest_go, Nat.sub_eq_zero_of_le (le_of_lt ha)]
  | cons b rest ih =>
    intro acc ha
    have harr : (((b :: rest).reverse.map (fun b => b.messages)).flatten ++ acc) =
        (rest.reverse.map (fun b => b.messages)).flatten ++ (b.messages ++ acc) := by
      simp [List.flatten_append]
    by_cases hfull : count ≤ (b.messages ++ acc).length
    · rw [latest_go]
      simp only [hfull, if_true]
      rw [harr]
      unfold pyLastSlice
      rw [if_neg (Nat.pos_iff_ne_zero.mp hc)]
      have hlen : ((rest.reverse.map (fun b => b.messages)).flatten ++
          (b.messages ++ acc)).length =
          (rest.reverse.map (fun b => b.messages)).flatten.length +
          (b.messages ++ acc).length := by
        simp
      rw [hlen]
      have harith : (rest.reverse.map (fun b => b.messages)).flatten.length +
          (b.messages ++ acc).length - count =
          (rest.reverse.map (fun b => b.messages)).flatten.length +
          ((b.messages ++ acc).length - count) := by
        omega
      rw [harith, List.drop_append]
    · rw [latest_go]
      simp only [hfull, if_false]
      rw [ih (b.messages ++ acc) (by omega), harr]

/-- C4: for every store and every positive N, `get_latest_messages` returns
exactly the length-N suffix of the full conversation (all of it when the
conversation is shorter), i.e. it matches the tail of `get_conversation`
called with no limit and no skip, in chronological order; its length is
min N (total messages). -/
theorem get_latest_messages_spec (db : ConvDb) (match_id N : Nat) (hN : 0 < N) :
    get_latest_messages db match_id N =
      (get_conversation db match_id none none).drop
        ((get_conversation db match_id none none).length - N) ∧
    (get_latest_messages db match_id N).length =
      min N (get_conversation db match_id none none).length := by
  have hmain : get_latest_messages db match_id N =
      (get_conversation db match_id none none).drop
        ((get_conversation db match_id none none).length - N) := by
    unfold get_latest_messages get_conversation
    by_cases hb : sortBuckets (db.filter (fun b => b.match_id == match_id)) = []
    · simp [hb]
    · have hbr : (sortBuckets (db.filter (fun b => b.match_id == match_id))).reverse ≠ [] := by
        simpa using hb
      simp only [hb, if_false, hbr, if_false]
      rw [latest_go_eq N hN _ [] (by simpa using hN)]
      simp
  refine ⟨hmain, ?_⟩
  rw [hmain]
  simp only [List.length_drop]
  omega

/-- A concrete two-bucket conversation store used by the C4 witness. -/
def sampleConvDb : ConvDb :=
  [{ match_id := 5, bucket_number := 1, message_count := 2,
     messages := [{ sender_profile_id := 1, sender_name := "a", content := "m1" },
                  { sender_profile_id := 2, sender_name := "b", content := "m2" }] },
   { match_id := 5, bucket_number := 2, message_count := 1,
     messages := [{ sender_profile_id := 1, sender_name := "a", content := "m3" }] }]

/-- Witness for C4 on a concrete two-bucket store. -/
theorem get_latest_messages_spec_witness :
    0 < 2 ∧
    (get_latest_messages sampleConvDb 5 2 =
      (get_conversation sampleConvDb 5 none none).drop
        ((get_conversation sampleConvDb 5 none none).length - 2) ∧
     (get_latest_messages sampleConvDb 5 2).length =
      min 2 (get_conversation sampleConvDb 5 none none).length) :=
  ⟨by decide, get_latest_messages_spec sampleConvDb 5 2 (by decide)⟩

/-- The count-consistency property of a conversation store: every stored
bucket has its `message_count` field equal to the length of its `messages`
array. -/
def counts_consistent (db : ConvDb) : Prop :=
  ∀ b ∈ db, b.message_count = b.messages.length

instance counts_consistent_dec (db : ConvDb) : Decidable (counts_consistent db) :=
  inferInstanceAs (Decidable (∀ b ∈ db, b.message_count = b.messages.length))

theorem latestStep_fold_mem :
    ∀ (l : List Bucket) (acc : Option Bucket) (b : Bucket),
      l.foldl latestStep acc = some b → b ∈ l ∨ acc = some b := by
  intro l
  induction l with
  | nil => intro acc b h; exact Or.inr h
  | cons x rest ih =>
    intro acc b h
    rcases ih (latestStep acc x) b h with hm | he
    · exact Or.inl (List.mem_cons_of_mem x hm)
    · cases acc with
      | none =>
        simp only [latestStep, Option.some.injEq] at he
        exact Or.inl (he ▸ List.mem_cons_self x rest)
      | some a =>
        simp only [latestStep] at he
        by_cases hlt : a.bucket_number < x.bucket_number
        · rw [if_pos hlt, Option.some.injEq] at he
          exact Or.inl (he ▸ List.mem_cons_self x rest)
        · rw [if_neg hlt] at he
          exact Or.inr he

theorem latest_bucket_mem {db : ConvDb} {match_id : Nat} {b : Bucket}
    (h : latest_bucket db match_id = some b) : b ∈ db := by
  unfold latest_bucket at h
  rcases latestStep_fold_mem _ none b h with hm | he
  · exact List.mem_of_mem_filter hm
  · exact absurd he (by simp)

theorem mem_updateBucket :
    ∀ (db : ConvDb) (old new b : Bucket), b ∈ updateBucket db old new →
      b ∈ db ∨ b = new := by
  intro db
  induction db with
  | nil => intro old new b h; simp [updateBucket] at h
  | cons x rest ih =>
    intro old new b h
    rw [updateBucket] at h
    by_cases hx : x = old
    · rw [if_pos hx] at h
      rcases List.mem_cons.mp h with hb | hb
      · exact Or.inr hb
      · exact Or.inl (List.mem_cons_of_mem x hb)
    · rw [if_neg hx] at h
      rcases List.mem_cons.mp h with hb | hb
      · exact Or.inl (hb ▸ List.mem_cons_self x rest)
      · rcases ih old new b hb with h1 | h2
        · exact Or.inl (List.mem_cons_of_mem x h1)
        · exact Or.inr h2

/-- C10: count consistency is an invariant of the conversation writers: if
every bucket of the store has `message_count` equal to the length of its
`messages` list, the store produced by `create_conversation` and the store
produced by `add_message` (new bucket with count 1 and one message, or
in-place push of one message with the count incremented by one) satisfy the
same equality. -/
theorem counts_consistent_preserved (db : ConvDb) (match_id sender_profile_id : Nat)
    (sender_name message_content : String) (h : counts_consistent db) :
    counts_consistent (create_conversation db match_id sender_profile_id
      sender_name message_content) ∧
    counts_consistent (add_message db match_id sender_profile_id
      sender_name message_content).1 := by
  constructor
  · intro b hb
    unfold create_conversation at hb
    rcases List.mem_append.mp hb with h1 | h2
    · exact h b h1
    · simp [List.mem_singleton.mp h2]
  · unfold add_message
    cases hlb : latest_bucket db match_id with
    | none =>
      intro b hb
      simp only at hb
      unfold create_conversation at hb
      rcases List.mem_append.mp hb with h1 | h2
      · exact h b h1
      · simp [List.mem_singleton.mp h2]
    | some lb =>
      by_cases hfull : MESSAGES_PER_BUCKET ≤ lb.message_count
      · simp only [hfull, if_true]
        intro b hb
        rcases List.mem_append.mp hb with h1 | h2
        · exact h b h1
        · simp [List.mem_singleton.mp h2]
      · simp only [hfull, if_false]
        intro b hb
        rcases mem_updateBucket db lb _ b hb with h1 | h2
        · exact h b h1
        · rw [h2]
          have hc : lb.message_count = lb.messages.length :=
            h lb (latest_bucket_mem hlb)
          simp [hc]

/-- Witness for C10 on a concrete one-bucket store. -/
theorem counts_consistent_preserved_witness :
    counts_consistent
      [{ match_id := 5, bucket_number := 1, message_count := 1,
         messages := [{ sender_profile_id := 1, sender_name := "a", content := "m1" }] }] ∧
    (counts_consistent (create_conversation
      [{ match_id := 5, bucket_number := 1, message_count := 1,
         messages := [{ sender_profile_id := 1, sender_name := "a", content := "m1" }] }]
      5 2 "b" "m2") ∧
    counts_consistent (add_message
      [{ match_id := 5, bucket_number := 1, message_count := 1,
         messages := [{ sender_profile_id := 1, sender_name := "a", content := "m1" }] }]
      5 2 "b" "m2").1) :=
  ⟨by decide,
   counts_consistent_preserved
    [{ match_id := 5, bucket_number := 1, message_count := 1,
       messages := [{ sender_profile_id := 1, sender_name := "a", content := "m1" }] }]
    5 2 "b" "m2" (by decide)⟩

/-! ## Bucket-capacity invariant over operation traces -/

/-- One write operation of the conversation store for a fixed match:
either a `create_conversation` call or an `add_message` call. -/
inductive ConvOp where
  | create (sender_profile_id : Nat) (sender_name content : String)
  | add (sender_profile_id : Nat) (sender_name content : String)
deriving DecidableEq, Repr

/-- Apply one operation to the store. -/
def applyConvOp (db : ConvDb) (match_id : Nat) : ConvOp → ConvDb
  | ConvOp.create s n c => create_conversation db match_id s n c
  | ConvOp.add s n c => (add_message db match_id s n c).1

/-- Run a sequence of operations from a given store. -/
def runConvOps (db : ConvDb) (match_id : Nat) : List ConvOp → ConvDb
  | [] => db
  | op :: rest => runConvOps (applyConvOp db match_id op) match_id rest

/-- The capacity property claimed for the bucket store: every bucket of the
conversation that has a strictly higher-numbered bucket after it holds
exactly `MESSAGES_PER_BUCKET` messages (only the highest-numbered bucket
may be partial). -/
def CapacityOk (db : ConvDb) (match_id : Nat) : Prop :=
  ∀ b1 ∈ db, ∀ b2 ∈ db, b1.match_id = match_id → b2.match_id = match_id →
    b1.bucket_number < b2.bucket_number →
    b1.message_count = MESSAGES_PER_BUCKET

instance CapacityOk_dec (db : ConvDb) (match_id : Nat) :
    Decidable (CapacityOk db match_id) :=
  inferInstanceAs (Decidable (∀ b1 ∈ db, ∀ b2 ∈ db,
    b1.match_id = match_id → b2.match_id = match_id →
    b1.bucket_number < b2.bucket_number →
    b1.message_count = MESSAGES_PER_BUCKET))

/-- A trace is good when `create_conversation` is only invoked while no
conversation exists yet for the match (the callers in
`mongo_database.py` always guard creation this way). -/
def goodConvOps (db : ConvDb) (match_id : Nat) : List ConvOp → Bool
  | [] => true
  | ConvOp.create s n c :: rest =>
    !conversation_exists db match_id &&
    goodConvOps (applyConvOp db match_id (ConvOp.create s n c)) match_id rest
  | ConvOp.add s n c :: rest =>
    goodConvOps (applyConvOp db match_id (ConvOp.add s n c)) match_id rest

set_option maxRecDepth 100000 in
/-- Counterexample for C3: the claim quantifies over every sequence of
`create_conversation` and `add_message` calls, but `create_conversation`
unconditionally inserts a bucket numbered 1, so calling it twice and then
filling the first bucket produces a store with buckets numbered 1, 1, 2 in
which a bucket numbered below the maximum holds a single message. -/
theorem bucket_capacity_counterexample :
    ¬ CapacityOk
        (runConvOps [] 7
          (ConvOp.create 1 "a" "m" :: ConvOp.create 1 "a" "m" ::
            List.replicate MESSAGES_PER_BUCKET (ConvOp.add 1 "a" "m"))) 7 := by
  decide

/-- The chain shape of the buckets of one well-formed conversation,
numbered consecutively starting at k: counts match lengths, every count is
between 1 and the capacity, and every bucket except the final one is
exactly full. -/
def chainFrom : Nat → List Bucket → Prop
  | _, [] => True
  | k, b :: rest =>
    b.bucket_number = k ∧
    b.message_count = b.messages.length ∧
    1 ≤ b.message_count ∧
    b.message_count ≤ MESSAGES_PER_BUCKET ∧
    (rest = [] ∨ b.message_count = MESSAGES_PER_BUCKET) ∧
    chainFrom (k + 1) rest

theorem chainFrom_ge : ∀ (k : Nat) (l : List Bucket), chainFrom k l →
    ∀ x ∈ l, k ≤ x.bucket_number := by
  intro k l
  induction l generalizing k with
  | nil => intro _ x hx; simp at hx
  | cons b rest ih =>
    intro h x hx
    rcases List.mem_cons.mp hx with rfl | hx'
    · exact le_of_eq h.1.symm
    · exact le_trans (Nat.le_succ k) (ih (k + 1) h.2.2.2.2.2 x hx')

theorem chain_decomp :
    ∀ (db : ConvDb) (k : Nat), chainFrom k db → db ≠ [] →
    ∃ front final, db = front ++ [final] ∧
      final.message_count = final.messages.length ∧
      1 ≤ final.message_count ∧
      final.message_count ≤ MESSAGES_PER_BUCKET ∧
      (∀ a : Bucket, a.bucket_number < k →
        List.foldl latestStep (some a) db = some final) ∧
      List.foldl latestStep none db = some final ∧
      (∀ new, updateBucket db final new = front ++ [new]) ∧
      (∀ new : Bucket, new.message_count = new.messages.length →
        1 ≤ new.message_count → new.message_count ≤ MESSAGES_PER_BUCKET →
        new.bucket_number = final.bucket_number →
        chainFrom k (front ++ [new])) ∧
      (∀ new : Bucket, final.message_count = MESSAGES_PER_BUCKET →
        new.message_count = new.messages.length →
        1 ≤ new.message_count → new.message_count ≤ MESSAGES_PER_BUCKET →
        new.bucket_number = final.bucket_number + 1 →
        chainFrom k (db ++ [new])) := by
  intro db
  induction db with
  | nil => intro k _ hne; exact absurd rfl hne
  | cons b rest ih =>
    intro k h _
    obtain ⟨hb1, hb2, hb3, hb4, hb5, hrest⟩ := h
    by_cases hre : rest = []
    · subst hre
      refine ⟨[], b, rfl, hb2, hb3, hb4, ?_, ?_, ?_, ?_, ?_⟩
      · intro a ha
        have : a.bucket_number < b.bucket_number := by omega
        simp [latestStep, this]
      · simp [latestStep]
      · intro new
        simp [updateBucket]
      · intro new hn1 hn2 hn3 hn4
        exact ⟨hn4.trans hb1, hn1, hn2, hn3, Or.inl rfl, trivial⟩
      · intro new hfull hn1 hn2 hn3 hn4
        refine ⟨hb1, hb2, hb3, hb4, Or.inr hfull, ?_⟩
        exact ⟨by omega, hn1, hn2, hn3, Or.inl rfl, trivial⟩
    · have hbfull : b.message_count = MESSAGES_PER_BUCKET := by
        rcases hb5 with he | hf
        · exact absurd he hre
        · exact hf
      obtain ⟨front', final, hdeq, hf1, hf2, hf3, hfoldA, hfoldN, hupd, hre1, hre2⟩ :=
        ih (k + 1) hrest hre
      have hfinmem : final ∈ rest := by
        rw [hdeq]
        exact List.mem_append.mpr (Or.inr (List.mem_singleton.mpr rfl))
      have hfinge : k + 1 ≤ final.bucket_number :=
        chainFrom_ge (k + 1) rest hrest final hfinmem
      have hbne : b ≠ final := by
        intro he
        rw [he] at hb1
        omega
      refine ⟨b :: front', final, ?_, hf1, hf2, hf3, ?_, ?_, ?_, ?_, ?_⟩
      · rw [hdeq]; rfl
      · intro a ha
        have hstep : latestStep (some a) b = some b := by
          have : a.bucket_number < b.bucket_number := by omega
          simp [latestStep, this]
        rw [List.foldl_cons, hstep]
        exact hfoldA b (by omega)
      · rw [List.foldl_cons]
        have hstep : latestStep none b = some b := by simp [latestStep]
        rw [hstep]
        exact hfoldA b (by omega)
      · intro new
        rw [updateBucket, if_neg hbne, hupd new]
        rfl
      · intro new hn1 hn2 hn3 hn4
        refine ⟨hb1, hb2, hb3, hb4, Or.inr hbfull, ?_⟩
        have := hre1 new hn1 hn2 hn3 hn4
        simpa using this
      · intro new hfull hn1 hn2 hn3 hn4
        refine ⟨hb1, hb2, hb3, hb4, Or.inr hbfull, ?_⟩
        have := hre2 new hfull hn1 hn2 hn3 hn4
        simpa using this

theorem conversation_exists_false_nil {db : ConvDb} {match_id : Nat}
    (hmid : ∀ b ∈ db, b.match_id = match_id)
    (h : conversation_exists db match_id = false) : db = [] := by
  cases db with
  | nil => rfl
  | cons b rest =>
    exfalso
    have hb : b.match_id = match_id := hmid b (List.mem_cons_self b rest)
    simp [conversation_exists, hb] at h

theorem add_message_preserves_inv (db : ConvDb) (match_id s : Nat) (n c : String)
    (hmid : ∀ b ∈ db, b.match_id = match_id) (hchain : chainFrom 1 db) :
    (∀ b ∈ (add_message db match_id s n c).1, b.match_id = match_id) ∧
    chainFrom 1 (add_message db match_id s n c).1 := by
  by_cases hnil : db = []
  · subst hnil
    constructor
    · intro b hb
      simp [add_message, latest_bucket, create_conversation] at hb
      rw [hb]
    · show chainFrom 1 (add_message [] match_id s n c).1
      simp only [add_message, latest_bucket, List.filter_nil, List.foldl_nil,
        create_conversation, List.nil_append]
      exact ⟨rfl, rfl, le_refl 1, by norm_num [MESSAGES_PER_BUCKET], Or.inl rfl, trivial⟩
  · have hfil : db.filter (fun b => b.match_id == match_id) = db :=
      List.filter_eq_self.mpr (fun a ha => by simp [hmid a ha])
    obtain ⟨front, final, hdeq, hf1, hf2, hf3, _, hfoldN, hupd, hre1, hre2⟩ :=
      chain_decomp db 1 hchain hnil
    have hlb : latest_bucket db match_id = some final := by
      unfold latest_bucket
      rw [hfil]
      exact hfoldN
    have hfinmem : final ∈ db := by
      rw [hdeq]
      exact List.mem_append.mpr (Or.inr (List.mem_singleton.mpr rfl))
    unfold add_message
    rw [hlb]
    dsimp only
    by_cases hfull : MESSAGES_PER_BUCKET ≤ final.message_count
    · rw [if_pos hfull]
      constructor
      · intro b hb
        rcases List.mem_append.mp hb with h1 | h2
        · exact hmid b h1
        · rw [List.mem_singleton.mp h2]
      · exact hre2 _ (le_antisymm hf3 hfull) rfl (le_refl 1)
          (by norm_num [MESSAGES_PER_BUCKET]) rfl
    · rw [if_neg hfull]
      constructor
      · intro b hb
        rw [hupd] at hb
        rcases List.mem_append.mp hb with h1 | h2
        · exact hmid b (by rw [hdeq]; exact List.mem_append.mpr (Or.inl h1))
        · rw [List.mem_singleton.mp h2]
          exact hmid final hfinmem
      · rw [hupd]
        refine hre1 _ ?_ ?_ ?_ rfl
        · simp [hf1]
        · show 1 ≤ final.message_count + 1
          omega
        · show final.message_count + 1 ≤ MESSAGES_PER_BUCKET
          omega

theorem runConvOps_inv (match_id : Nat) :
    ∀ (ops : List ConvOp) (db : ConvDb),
      (∀ b ∈ db, b.match_id = match_id) → chainFrom 1 db →
      goodConvOps db match_id ops = true →
      (∀ b ∈ runConvOps db match_id ops, b.match_id = match_id) ∧
      chainFrom 1 (runConvOps db match_id ops) := by
  intro ops
  induction ops with
  | nil => intro db h1 h2 _; exact ⟨h1, h2⟩
  | cons op rest ih =>
    intro db h1 h2 hgood
    rw [runConvOps]
    cases op with
    | add s n c =>
      rw [goodConvOps] at hgood
      obtain ⟨m1, m2⟩ := add_message_preserves_inv db match_id s n c h1 h2
      exact ih (applyConvOp db match_id (ConvOp.add s n c)) m1 m2 hgood
    | create s n c =>
      rw [goodConvOps, Bool.and_eq_true] at hgood
      obtain ⟨hop, hrest⟩ := hgood
      have hdb : db = [] := by
        apply conversation_exists_false_nil h1
        simpa using hop
      subst hdb
      refine ih _ ?_ ?_ hrest
      · intro b hb
        simp [applyConvOp, create_conversation] at hb
        rw [hb]
      · show chainFrom 1 (create_conversation [] match_id s n c)
        simp only [create_conversation, List.nil_append]
        exact ⟨rfl, rfl, le_refl 1, by norm_num [MESSAGES_PER_BUCKET], Or.inl rfl, trivial⟩

theorem chainFrom_capacity (match_id : Nat) :
    ∀ (k : Nat) (db : ConvDb), chainFrom k db → CapacityOk db match_id := by
  intro k db
  induction db generalizing k with
  | nil => intro _ b1 hb1; simp at hb1
  | cons b rest ih =>
    intro h b1 hb1 b2 hb2 hm1 hm2 hlt
    rcases List.mem_cons.mp hb1 with rfl | h1
    · rcases List.mem_cons.mp hb2 with rfl | h2
      · exact absurd hlt (lt_irrefl _)
      · have hne : rest ≠ [] := by
          rintro rfl
          simp at h2
        rcases h.2.2.2.2.1 with he | hf
        · exact absurd he hne
        · exact hf
    · rcases List.mem_cons.mp hb2 with rfl | h2
      · have hge := chainFrom_ge (k + 1) rest h.2.2.2.2.2 b1 h1
        have hbk : b2.bucket_number = k := h.1
        omega
      · exact ih (k + 1) h.2.2.2.2.2 b1 h1 b2 h2 hm1 hm2 hlt

set_option maxRecDepth 100000 in
/-- C3 (amended): the capacity invariant holds for every operation sequence
in which `create_conversation` is only invoked while no conversation exists
for the match (which is how the code base always calls it); then every
bucket below the highest-numbered one holds exactly `MESSAGES_PER_BUCKET`
messages and only the highest-numbered bucket may be partial; in
particular, a fresh conversation receiving capacity + 1 messages has
exactly two buckets, number 1 exactly full and number 2 holding a single
message.  (Without the restriction the claim fails, see the counterexample:
a second `create_conversation` call inserts a duplicate bucket number 1.) -/
theorem bucket_capacity_invariant (match_id : Nat) (ops : List ConvOp)
    (hgood : goodConvOps [] match_id ops = true) :
    CapacityOk (runConvOps [] match_id ops) match_id ∧
    (runConvOps [] 7
        (ConvOp.create 1 "a" "m" ::
          List.replicate MESSAGES_PER_BUCKET (ConvOp.add 1 "a" "m"))).map
      (fun b => (b.bucket_number, b.message_count)) =
      [(1, MESSAGES_PER_BUCKET), (2, 1)] := by
  constructor
  · have h := runConvOps_inv match_id ops [] (by simp) trivial hgood
    exact chainFrom_capacity match_id 1 _ h.2
  · decide

/-- Witness for C3 (amended) on a concrete good trace. -/
theorem bucket_capacity_invariant_witness :
    goodConvOps [] 7 [ConvOp.create 1 "a" "m", ConvOp.add 2 "b" "m2"] = true ∧
    (CapacityOk (runConvOps [] 7 [ConvOp.create 1 "a" "m", ConvOp.add 2 "b" "m2"]) 7 ∧
     (runConvOps [] 7
        (ConvOp.create 1 "a" "m" ::
          List.replicate MESSAGES_PER_BUCKET (ConvOp.add 1 "a" "m"))).map
      (fun b => (b.bucket_number, b.message_count)) =
      [(1, MESSAGES_PER_BUCKET), (2, 1)]) :=
  ⟨by decide, bucket_capacity_invariant 7
    [ConvOp.create 1 "a" "m", ConvOp.add 2 "b" "m2"] (by decide)⟩

/-! ## Candidate selection
(`ProfilesRepository.get_random_profile_excluding_visited`, called by
`MongoDatabase.get_random_profile_for_user`) -/

/-- A calendar date (year, month, day).  Stored `date_of_birth` values and
the birth-date bounds computed from the age criteria are all datetimes at
midnight, so the datetime comparisons in the Mongo filter are exactly
lexicographic date comparisons.  The year is an integer so that the
subtraction in the bound computation never truncates. -/
structure PyDate where
  year : Int
  month : Nat
  day : Nat
deriving DecidableEq, Repr

/-- Strict lexicographic order on dates (Python date `<`). -/
def pyDateBefore (a b : PyDate) : Bool :=
  a.year < b.year ||
  (a.year == b.year && (a.month < b.month ||
    (a.month == b.month && a.day < b.day)))

/-- Python date `<=`. -/
def pyDateLe (a b : PyDate) : Bool :=
  pyDateBefore a b || a == b

/-- A GeoJSON point; coordinates only flow into the abstract geospatial
predicate, never into arithmetic, so integers stand in for the floats. -/
structure GeoPoint where
  lon : Int
  lat : Int
deriving DecidableEq, Repr

/-- One saved search location (`{city_name, coordinates}`); the code reads
coordinates with `.get("coordinates", [0, 0])`. -/
structure CriteriaLocation where
  city_name : String
  coordinates : Option GeoPoint
deriving DecidableEq, Repr

/-- `location.get("coordinates", [0, 0])`. -/
def CriteriaLocation.coords (l : CriteriaLocation) : GeoPoint :=
  l.coordinates.getD { lon := 0, lat := 0 }

/-- The saved search criteria fields consumed by
`get_random_profile_excluding_visited` (subjects are never filtered on). -/
structure SearchCriteria where
  age_min : Option Int
  age_max : Option Int
  locations : List CriteriaLocation
  radii : List (Option Int)
deriving DecidableEq, Repr

/-- The fields of a `profiles` document consumed by the selection filter. -/
structure ProfileDoc where
  id : Nat
  gender : String
  looking_for_gender : List String
  date_of_birth : PyDate
  city_name : String
deriving DecidableEq, Repr

/-- The `$match` stage built by `get_random_profile_excluding_visited`:
visited-id exclusion (`$nin`), the birth-date window derived from the age
bounds, gender restricted to the requesting user `looking_for_gender` (when
non-empty, by Python truthiness), and the reciprocal constraint that the
candidate `looking_for_gender` array contains the requesting user gender
(when the user gender is non-empty). -/
def matchStage (today : PyDate) (criteria : SearchCriteria)
    (current_user_profile : Option ProfileDoc) (visited_profile_ids : List Nat)
    (p : ProfileDoc) : Bool :=
  !visited_profile_ids.contains p.id &&
  (match criteria.age_max with
   | some amax =>
     pyDateBefore { year := today.year - amax - 1, month := today.month,
                    day := today.day } p.date_of_birth
   | none => true) &&
  (match criteria.age_min with
   | some amin =>
     pyDateLe p.date_of_birth
       { year := today.year - amin, month := today.month, day := today.day }
   | none => true) &&
  (match current_user_profile with
   | some u => u.looking_for_gender.isEmpty || u.looking_for_gender.contains p.gender
   | none => true) &&
  (match current_user_profile with
   | some u => u.gender == "" || p.looking_for_gender.contains u.gender
   | none => true)

/-- The geospatial part of the pipeline in
`get_random_profile_excluding_visited`.  The code collects a `$geoNear`
condition for every saved (location, radius) pair with a positive radius,
but then inserts only the FIRST pair (with its radius converted to meters)
as the single `$geoNear` stage; when the first radius is not positive, or no
pair has a positive radius, no geospatial stage is inserted at all.  The
geospatial evaluation itself is the storage engine's and is abstracted as
the predicate `withinMeters center maxDistanceMeters profile`. -/
def geoStage (withinMeters : GeoPoint → Int → ProfileDoc → Bool)
    (criteria : SearchCriteria) (p : ProfileDoc) : Bool :=
  match criteria.locations, criteria.radii with
  | l0 :: _, r0 :: _ =>
    let location_conditions := (criteria.locations.zip criteria.radii).filter
      (fun lr => match lr.2 with
        | some r => decide (0 < r)
        | none => false)
    if location_conditions.isEmpty then true
    else
      match r0 with
      | some r => if 0 < r then withinMeters l0.coords (r * 1000) p else true
      | none => true
  | _, _ => true

/-- The set of profiles that can reach the `$sample` stage of the
aggregation pipeline of `get_random_profile_excluding_visited`. -/
def eligible_profiles (withinMeters : GeoPoint → Int → ProfileDoc → Bool)
    (profiles : List ProfileDoc) (today : PyDate) (criteria : SearchCriteria)
    (current_user_profile : Option ProfileDoc) (visited_profile_ids : List Nat) :
    List ProfileDoc :=
  profiles.filter (fun p =>
    matchStage today criteria current_user_profile visited_profile_ids p &&
    geoStage withinMeters criteria p)

/-- `ProfilesRepository.get_random_profile_excluding_visited`: the
`$sample {size: 1}` stage picks one pseudo-random document of the filtered
set; the choice itself is abstracted as `sample`, constrained in the
theorems to return a member of its argument. -/
def get_random_profile_excluding_visited
    (withinMeters : GeoPoint → Int → ProfileDoc → Bool)
    (sample : List ProfileDoc → Option ProfileDoc)
    (profiles : List ProfileDoc) (today : PyDate) (criteria : SearchCriteria)
    (current_user_profile : Option ProfileDoc) (visited_profile_ids : List Nat) :
    Option ProfileDoc :=
  sample (eligible_profiles withinMeters profiles today criteria
    current_user_profile visited_profile_ids)

/-- C5 (amended): candidate selection never returns a profile whose id is
in the visited-id list passed to it, whatever member the `$sample` stage
picks.  (The original claim additionally said the requesting user own
profile id is never returned; the counterexample shows the pipeline
contains no such exclusion.) -/
theorem candidate_never_visited
    (withinMeters : GeoPoint → Int → ProfileDoc → Bool)
    (sample : List ProfileDoc → Option ProfileDoc)
    (hsample : ∀ l p, sample l = some p → p ∈ l)
    (profiles : List ProfileDoc) (today : PyDate) (criteria : SearchCriteria)
    (current_user_profile : Option ProfileDoc) (visited_profile_ids : List Nat)
    (p : ProfileDoc)
    (h : get_random_profile_excluding_visited withinMeters sample profiles today
      criteria current_user_profile visited_profile_ids = some p) :
    p.id ∉ visited_profile_ids := by
  have hmem := hsample _ p h
  have hfil := List.of_mem_filter hmem
  have hvis : (!visited_profile_ids.contains p.id) = true := by
    simp only [matchStage, Bool.and_eq_true] at hfil
    exact hfil.1.1.1.1.1
  simpa using hvis

/-- Witness for C5 (amended) on a concrete store. -/
theorem candidate_never_visited_witness :
    ({ id := 2, gender := "F", looking_for_gender := ["M"],
       date_of_birth := { year := 1990, month := 1, day := 1 },
       city_name := "Paris" } : ProfileDoc).id ∉ ([3] : List Nat) :=
  candidate_never_visited (fun _ _ _ => false) List.head?
    (by intro l p h
        cases l with
        | nil => simp at h
        | cons a t =>
          rw [List.head?_cons, Option.some.injEq] at h
          exact h ▸ List.mem_cons_self a t)
    [{ id := 2, gender := "F", looking_for_gender := ["M"],
       date_of_birth := { year := 1990, month := 1, day := 1 },
       city_name := "Paris" }]
    { year := 2026, month := 10, day := 12 }
    { age_min := none, age_max := none, locations := [], radii := [] }
    none [3]
    { id := 2, gender := "F", looking_for_gender := ["M"],
      date_of_birth := { year := 1990, month := 1, day := 1 },
      city_name := "Paris" }
    (by decide)

/-- Counterexample for C5: the pipeline never excludes the requesting user
own profile.  Here the store holds exactly the requester own profile
(gender F, seeking F, so it passes its own reciprocal gender filters), the
visited list is empty, and selection returns that very profile; `List.head?`
is a legitimate instance of the `$sample` stage since it returns a member
of the eligible set. -/
theorem candidate_own_profile_counterexample :
    get_random_profile_excluding_visited (fun _ _ _ => false) List.head?
      [{ id := 1, gender := "F", looking_for_gender := ["F"],
         date_of_birth := { year := 1990, month := 1, day := 1 },
         city_name := "Paris" }]
      { year := 2026, month := 10, day := 12 }
      { age_min := none, age_max := none, locations := [], radii := [] }
      (some { id := 1, gender := "F", looking_for_gender := ["F"],
              date_of_birth := { year := 1990, month := 1, day := 1 },
              city_name := "Paris" })
      [] =
    some { id := 1, gender := "F", looking_for_gender := ["F"],
           date_of_birth := { year := 1990, month := 1, day := 1 },
           city_name := "Paris" } := by
  decide

/-- C6 at the failing input: a profile within the SECOND saved
(location, radius) pair and not the first.  The first conjunct shows the
profile is within one of the saved radii (so the claimed union semantics
would make it eligible); the second shows the pipeline built by
`get_random_profile_excluding_visited` — which inserts a `$geoNear` stage
for the first pair only — leaves the eligible set empty, so the profile can
never be sampled. -/
theorem candidate_geo_first_pair_only :
    ((fun (g : GeoPoint) (_ : Int) (p : ProfileDoc) =>
        g.lon == 100 && p.city_name == "Lyon")
      ({ city_name := "Lyon", coordinates := some { lon := 100, lat := 0 } }
        : CriteriaLocation).coords
      (50 * 1000)
      { id := 4, gender := "F", looking_for_gender := ["M"],
        date_of_birth := { year := 1990, month := 1, day := 1 },
        city_name := "Lyon" } = true) ∧
    eligible_profiles
      (fun (g : GeoPoint) (_ : Int) (p : ProfileDoc) =>
        g.lon == 100 && p.city_name == "Lyon")
      [{ id := 4, gender := "F", looking_for_gender := ["M"],
         date_of_birth := { year := 1990, month := 1, day := 1 },
         city_name := "Lyon" }]
      { year := 2026, month := 10, day := 12 }
      { age_min := none, age_max := none,
        locations := [{ city_name := "Paris", coordinates := some { lon := 0, lat := 0 } },
                      { city_name := "Lyon", coordinates := some { lon := 100, lat := 0 } }],
        radii := [some 50, some 50] }
      none [] = [] := by
  constructor
  · decide
  · decide

/-! ## Like handling with conversation seeding
(`MongoDatabase.handle_profile_like`) -/

/-- The fields of a `profiles` document consumed by `handle_profile_like`
(`first_name` is read with a default but is always present on created
profiles). -/
structure NamedProfile where
  id : Nat
  first_name : String
deriving DecidableEq, Repr

/-- `ProfilesRepository.get_profile` restricted to the fields used here:
`find_one` on `_id`. -/
def get_profile (profiles : List NamedProfile) (profile_id : Nat) :
    Option NamedProfile :=
  profiles.find? (fun p => p.id == profile_id)

/-- The state visible to `MongoDatabase.handle_profile_like`. -/
structure DbState where
  profiles : List NamedProfile
  matches_db : MatchDb
  convs : ConvDb
deriving Repr

/-- Python truthiness of an optional string (`if message:`): present and
non-empty. -/
def strTruthy : Option String → Bool
  | none => false
  | some s => !(s == "")

/-- `MongoDatabase.handle_profile_like`: run the match reconciliation, then,
when a non-empty message was given and the like succeeded, seed or extend
the conversation: on `like_sent` create it with the liker message; on
`mutual_match` append to the existing conversation, or, when none exists
yet, rebuild it from the reverse liker stored message (under the reverse
liker name) followed by the current message. -/
def handle_profile_like (st : DbState) (current_profile_id target_profile_id : Nat)
    (message : Option String) : DbState × LikeResult :=
  match get_profile st.profiles current_profile_id with
  | none => (st, { action := LikeAction.error })
  | some current_profile =>
    let r := handle_like st.matches_db current_profile_id target_profile_id message
    let st1 : DbState := { st with matches_db := r.1 }
    let result := r.2
    if strTruthy message = true ∧
       (result.action = LikeAction.like_sent ∨
        result.action = LikeAction.mutual_match) then
      let msg := message.getD ""
      let sender_name := current_profile.first_name
      match result.match_id with
      | none => (st1, result)
      | some match_id =>
        if result.action = LikeAction.like_sent then
          ({ st1 with convs := (create_conversation st1.convs match_id current_profile_id sender_name msg) }, result)
        else
          if conversation_exists st1.convs match_id then
            ({ st1 with convs := (add_message st1.convs match_id current_profile_id sender_name msg).1 }, result)
          else
            match get_profile st.profiles target_profile_id,
                  result.reverse_match_message with
            | some target_profile, some reverse_msg =>
              if reverse_msg == "" then (st1, result)
              else
                let convs1 := create_conversation st1.convs match_id
                  target_profile_id target_profile.first_name reverse_msg
                ({ st1 with convs := (add_message convs1 match_id current_profile_id sender_name msg).1 }, result)
            | _, _ => (st1, result)
    else (st1, result)

theorem filter_updateBucket (p : Bucket → Bool) :
    ∀ (db : ConvDb) (old new : Bucket), p old = true → p new = true →
      (updateBucket db old new).filter p = updateBucket (db.filter p) old new := by
  intro db
  induction db with
  | nil => intro old new _ _; simp [updateBucket]
  | cons b rest ih =>
    intro old new hold hnew
    rw [updateBucket]
    by_cases hb : b = old
    · subst hb
      rw [if_pos rfl, List.filter_cons, List.filter_cons, hold, hnew]
      simp only [if_true]
      rw [updateBucket, if_pos rfl]
    · rw [if_neg hb, List.filter_cons, List.filter_cons]
      cases hpb : p b with
      | true =>
        simp only [if_true]
        rw [updateBucket, if_neg hb, ih old new hold hnew]
      | false =>
        simp only [Bool.false_eq_true, if_false]
        exact ih old new hold hnew

theorem conversation_exists_iff_filter (db : ConvDb) (match_id : Nat) :
    conversation_exists db match_id = true ↔
      db.filter (fun b => b.match_id == match_id) ≠ [] := by
  constructor
  · intro h hnil
    obtain ⟨b, hb, hpb⟩ := List.any_eq_true.mp h
    have : b ∈ db.filter (fun b => b.match_id == match_id) :=
      List.mem_filter.mpr ⟨hb, hpb⟩
    rw [hnil] at this
    simp at this
  · intro h
    rcases hcase : db.filter (fun b => b.match_id == match_id) with _ | ⟨b, rest⟩
    · exact absurd hcase h
    · have hb : b ∈ db.filter (fun b => b.match_id == match_id) := by
        rw [hcase]; exact List.mem_cons_self b rest
      obtain ⟨hmem, hpb⟩ := List.mem_filter.mp hb
      exact List.any_eq_true.mpr ⟨b, hmem, hpb⟩

theorem chainFrom_sorted : ∀ (k : Nat) (l : List Bucket), chainFrom k l →
    List.Sorted (fun a b : Bucket => a.bucket_number ≤ b.bucket_number) l := by
  intro k l
  induction l generalizing k with
  | nil => intro _; exact List.sorted_nil
  | cons b rest ih =>
    intro h
    rw [List.sorted_cons]
    refine ⟨?_, ih (k + 1) h.2.2.2.2.2⟩
    intro x hx
    have hge := chainFrom_ge (k + 1) rest h.2.2.2.2.2 x hx
    have hbk : b.bucket_number = k := h.1
    omega

theorem sortBuckets_chain {k : Nat} {l : List Bucket} (h : chainFrom k l) :
    sortBuckets l = l :=
  List.Sorted.insertionSort_eq (chainFrom_sorted k l h)

theorem get_conversation_chain {db : ConvDb} {match_id : Nat}
    (h : chainFrom 1 (db.filter (fun b => b.match_id == match_id))) :
    get_conversation db match_id none none =
      ((db.filter (fun b => b.match_id == match_id)).map
        (fun b => b.messages)).flatten := by
  unfold get_conversation
  rw [sortBuckets_chain h]
  by_cases hnil : db.filter (fun b => b.match_id == match_id) = []
  · rw [if_pos hnil, hnil]
    rfl
  · rw [if_neg hnil]

/-- The single message carried by one `add_message` or
`create_conversation` call. -/
def mkMessage (s : Nat) (n c : String) : Message :=
  { sender_profile_id := s, sender_name := n, content := c }

/-- The fresh bucket inserted by `add_message` when the latest bucket is
full (and, with bucket number 1, by `create_conversation`). -/
def mkBucket (match_id bucket_number s : Nat) (n c : String) : Bucket :=
  { match_id := match_id, bucket_number := bucket_number, message_count := 1,
    messages := [mkMessage s n c] }

theorem create_conversation_eq (db : ConvDb) (match_id s : Nat) (n c : String) :
    create_conversation db match_id s n c = db ++ [mkBucket match_id 1 s n c] := rfl

/-- The in-place push performed by `add_message` on a non-full bucket. -/
def pushBucket (b : Bucket) (s : Nat) (n c : String) : Bucket :=
  { b with
    message_count := b.message_count + 1
    messages := b.messages ++ [mkMessage s n c] }

/-- Appending one message to an existing chain-shaped conversation extends
the flattened conversation by exactly that message and keeps the chain
shape. -/
theorem add_message_append (db : ConvDb) (match_id s : Nat) (n c : String)
    (hchain : chainFrom 1 (db.filter (fun b => b.match_id == match_id)))
    (hex : conversation_exists db match_id = true) :
    get_conversation (add_message db match_id s n c).1 match_id none none =
      get_conversation db match_id none none ++ [mkMessage s n c] ∧
    chainFrom 1 ((add_message db match_id s n c).1.filter
      (fun b => b.match_id == match_id)) := by
  have hfneq : db.filter (fun b => b.match_id == match_id) ≠ [] :=
    (conversation_exists_iff_filter db match_id).mp hex
  obtain ⟨front, final, hdeq, hf1, hf2, hf3, _, hfoldN, hupd, hre1, hre2⟩ :=
    chain_decomp _ 1 hchain hfneq
  have hfinmem : final ∈ db.filter (fun b => b.match_id == match_id) := by
    rw [hdeq]
    exact List.mem_append.mpr (Or.inr (List.mem_singleton.mpr rfl))
  have hfinmid : final.match_id = match_id := by
    simpa using (List.mem_filter.mp hfinmem).2
  have hlb : latest_bucket db match_id = some final := hfoldN
  by_cases hfull : MESSAGES_PER_BUCKET ≤ final.message_count
  · have hadd : add_message db match_id s n c =
        (db ++ [mkBucket match_id (final.bucket_number + 1) s n c], true) := by
      unfold add_message
      rw [hlb]
      dsimp only
      rw [if_pos hfull]
      rfl
    rw [hadd]
    have hone : ([mkBucket match_id (final.bucket_number + 1) s n c] : ConvDb).filter
        (fun b => b.match_id == match_id) =
        [mkBucket match_id (final.bucket_number + 1) s n c] := by
      simp [mkBucket]
    have hnewchain : chainFrom 1
        ((db ++ [mkBucket match_id (final.bucket_number + 1) s n c]).filter
          (fun b => b.match_id == match_id)) := by
      rw [List.filter_append, hone]
      exact hre2 _ (le_antisymm hf3 hfull) rfl (le_refl 1)
        (by norm_num [mkBucket, MESSAGES_PER_BUCKET]) rfl
    refine ⟨?_, hnewchain⟩
    rw [get_conversation_chain hchain, get_conversation_chain hnewchain,
      List.filter_append, hone]
    simp [mkBucket]
  · have hadd : add_message db match_id s n c =
        (updateBucket db final (pushBucket final s n c), true) := by
      unfold add_message
      rw [hlb]
      dsimp only
      rw [if_neg hfull]
      rfl
    rw [hadd]
    have hfcomm := filter_updateBucket (fun b => b.match_id == match_id) db final
      (pushBucket final s n c) (by simpa using hfinmid)
      (by simpa [pushBucket] using hfinmid)
    have hnewproj : (updateBucket db final (pushBucket final s n c)).filter
        (fun b => b.match_id == match_id) = front ++ [pushBucket final s n c] := by
      rw [hfcomm, hupd]
    have hnewchain : chainFrom 1 ((updateBucket db final
        (pushBucket final s n c)).filter (fun b => b.match_id == match_id)) := by
      rw [hnewproj]
      refine hre1 _ ?_ ?_ ?_ rfl
      · simp [pushBucket, mkMessage, hf1]
      · show 1 ≤ final.message_count + 1
        omega
      · show final.message_count + 1 ≤ MESSAGES_PER_BUCKET
        omega
    refine ⟨?_, hnewchain⟩
    rw [get_conversation_chain hchain, get_conversation_chain hnewchain,
      hnewproj, hdeq]
    simp [pushBucket]

/-- C7: when `handle_profile_like` resolves to a mutual match with a
non-empty message, the action is `mutual_match` and: if a conversation
already exists for the accepted match id, the current liker message is
appended to it; if none exists, the conversation is rebuilt as the reverse
liker stored initial message (under the reverse liker name) followed by the
current liker message, so the reverse message comes first. -/
theorem handle_profile_like_mutual_conversation
    (st : DbState) (C T : Nat) (s : String) (cp : NamedProfile) (m : MatchRecord)
    (hcp : get_profile st.profiles C = some cp)
    (hs : s ≠ "")
    (hnoCT : find_match st.matches_db C T = none)
    (hTC : find_match st.matches_db T C = some m)
    (hP : m.status = MatchStatus.PENDING)
    (hchain : chainFrom 1 (st.convs.filter (fun b => b.match_id == m.id))) :
    (handle_profile_like st C T (some s)).2.action = LikeAction.mutual_match ∧
    (conversation_exists st.convs m.id = true →
      get_conversation (handle_profile_like st C T (some s)).1.convs m.id none none =
        get_conversation st.convs m.id none none ++
          [{ sender_profile_id := C, sender_name := cp.first_name, content := s }]) ∧
    (∀ tp reverse_msg, conversation_exists st.convs m.id = false →
      get_profile st.profiles T = some tp →
      m.initial_message = some reverse_msg → reverse_msg ≠ "" →
      get_conversation (handle_profile_like st C T (some s)).1.convs m.id none none =
        [{ sender_profile_id := T, sender_name := tp.first_name,
           content := reverse_msg },
         { sender_profile_id := C, sender_name := cp.first_name, content := s }]) := by
  obtain ⟨db', hu, _, _, _⟩ := update_found_spec T C MatchStatus.ACCEPTED st.matches_db m hTC
  have hlike : handle_like st.matches_db C T (some s) =
      (db', { action := LikeAction.mutual_match
              match_id := some m.id
              status := some MatchStatus.ACCEPTED
              reverse_match_message := m.initial_message
              current_message := some s }) := by
    unfold handle_like
    rw [hnoCT]
    unfold find_reverse_match
    rw [hTC]
    simp only [hP, if_true, hu]
  have hst : strTruthy (some s) = true := by
    simp [strTruthy, hs]
  have hmain : handle_profile_like st C T (some s) =
      (if conversation_exists st.convs m.id then
        ({ st with matches_db := db', convs := (add_message st.convs m.id C cp.first_name s).1 },
         { action := LikeAction.mutual_match
           match_id := some m.id
           status := some MatchStatus.ACCEPTED
           reverse_match_message := m.initial_message
           current_message := some s })
      else
        match get_profile st.profiles T, m.initial_message with
        | some target_profile, some reverse_msg =>
          if reverse_msg == "" then
            ({ st with matches_db := db' },
             { action := LikeAction.mutual_match
               match_id := some m.id
               status := some MatchStatus.ACCEPTED
               reverse_match_message := m.initial_message
               current_message := some s })
          else
            ({ st with matches_db := db', convs := (add_message (create_conversation st.convs m.id T target_profile.first_name reverse_msg) m.id C cp.first_name s).1 },
             { action := LikeAction.mutual_match
               match_id := some m.id
               status := some MatchStatus.ACCEPTED
               reverse_match_message := m.initial_message
               current_message := some s })
        | _, _ =>
          ({ st with matches_db := db' },
           { action := LikeAction.mutual_match
             match_id := some m.id
             status := some MatchStatus.ACCEPTED
             reverse_match_message := m.initial_message
             current_message := some s })) := by
    unfold handle_profile_like
    rw [hcp]
    dsimp only
    rw [hlike]
    dsimp only
    rw [if_pos ⟨hst, Or.inr rfl⟩]
    rw [if_neg (by simp : ¬(LikeAction.mutual_match = LikeAction.like_sent))]
    rfl
  refine ⟨?_, ?_, ?_⟩
  · rw [hmain]
    by_cases hex : conversation_exists st.convs m.id = true
    · rw [if_pos hex]
    · rw [if_neg hex]
      split
      · split <;> rfl
      · rfl
  · intro hex
    rw [hmain, if_pos hex]
    exact (add_message_append st.convs m.id C cp.first_name s hchain hex).1
  · intro tp reverse_msg hex hT hrm hrmne
    rw [hmain, if_neg (by simp [hex]), hT, hrm]
    dsimp only
    rw [if_neg (by simpa using hrmne)]
    have hfilnil : st.convs.filter (fun b => b.match_id == m.id) = [] := by
      by_contra hne
      have h2 := (conversation_exists_iff_filter st.convs m.id).mpr hne
      rw [hex] at h2
      exact absurd h2 (by simp)
    have hb1 : (create_conversation st.convs m.id T tp.first_name
        reverse_msg).filter (fun b => b.match_id == m.id) =
        [mkBucket m.id 1 T tp.first_name reverse_msg] := by
      rw [create_conversation_eq, List.filter_append, hfilnil]
      simp [mkBucket]
    have hchain1 : chainFrom 1 ((create_conversation st.convs m.id T
        tp.first_name reverse_msg).filter (fun b => b.match_id == m.id)) := by
      rw [hb1]
      exact ⟨rfl, rfl, le_refl 1, by norm_num [mkBucket, MESSAGES_PER_BUCKET],
        Or.inl rfl, trivial⟩
    have hex1 : conversation_exists (create_conversation st.convs m.id T
        tp.first_name reverse_msg) m.id = true := by
      rw [conversation_exists_iff_filter, hb1]
      simp
    have happ := (add_message_append (create_conversation st.convs m.id T
      tp.first_name reverse_msg) m.id C cp.first_name s hchain1 hex1).1
    show get_conversation (add_message (create_conversation st.convs m.id T
      tp.first_name reverse_msg) m.id C cp.first_name s).1 m.id none none = _
    rw [happ, get_conversation_chain hchain1, hb1]
    simp [mkBucket, mkMessage]

/-- Profiles for the C7 witness (the spec scenario: profile 10 liked
profile 20 with "Hi"; 20 likes back with "Hi back"). -/
def c7profiles : List NamedProfile :=
  [{ id := 10, first_name := "Alice" }, { id := 20, first_name := "Bob" }]

/-- State for the C7 witness: the reverse match 10 -> 20 is PENDING with
stored message "Hi" and no conversation exists yet. -/
def c7state : DbState :=
  { profiles := c7profiles
    matches_db := [{ id := 1, initiator_profile_id := 10, target_profile_id := 20,
                     status := MatchStatus.PENDING, initial_message := some "Hi" }]
    convs := [] }

/-- Witness for C7: in the spec scenario the rebuilt conversation is
exactly ["Hi" from profile 10, "Hi back" from profile 20], in that order. -/
theorem handle_profile_like_mutual_conversation_witness :
    get_conversation (handle_profile_like c7state 20 10 (some "Hi back")).1.convs
        1 none none =
      [{ sender_profile_id := 10, sender_name := "Alice", content := "Hi" },
       { sender_profile_id := 20, sender_name := "Bob", content := "Hi back" }] :=
  (handle_profile_like_mutual_conversation c7state 20 10 "Hi back"
      { id := 20, first_name := "Bob" }
      { id := 1, initiator_profile_id := 10, target_profile_id := 20,
        status := MatchStatus.PENDING, initial_message := some "Hi" }
      (by decide) (by decide) (by decide) (by decide) (by decide)
      (by trivial)).2.2
    { id := 10, first_name := "Alice" } "Hi" (by decide) (by decide) rfl (by decide)

/-! ## Transient storage failures (conditional updates that modify nothing)

The sequential model above cannot make a conditional update fail: the
document found by the preceding read is still there when the update runs.
A failing update is a race with a concurrent writer, so the outcome of each
conditional-update attempt is abstracted into an explicit oracle
(`outcome i` = whether attempt number i modified a document); a failed
attempt leaves the collection unchanged.  The embeddings below are the same
code paths as `handle_like` and `add_message` with the update success bit
read from the oracle, and additionally count the attempts performed. -/

/-- `MatchesRepository.handle_like` under the storage-failure oracle; the
third component is the number of conditional-update attempts performed. -/
def handle_like_with_outcomes (db : MatchDb)
    (current_profile_id target_profile_id : Nat) (message : Option String)
    (outcome : Nat → Bool) : MatchDb × LikeResult × Nat :=
  match find_match db current_profile_id target_profile_id with
  | some existing_match =>
    (db, { action := LikeAction.already_liked
           match_id := some existing_match.id
           status := some existing_match.status }, 0)
  | none =>
    match find_reverse_match db current_profile_id target_profile_id with
    | some reverse_match =>
      if reverse_match.status = MatchStatus.PENDING then
        if outcome 0 then
          let r := update_match_status_by_profiles db
            target_profile_id current_profile_id MatchStatus.ACCEPTED
          (r.1, { action := LikeAction.mutual_match
                  match_id := some reverse_match.id
                  status := some MatchStatus.ACCEPTED
                  reverse_match_message := reverse_match.initial_message
                  current_message := message }, 1)
        else
          (db, { action := LikeAction.error }, 1)
      else
        let r := handle_like_create db current_profile_id target_profile_id message
        (r.1, r.2, 0)
    | none =>
      let r := handle_like_create db current_profile_id target_profile_id message
      (r.1, r.2, 0)

/-- `ConversationsRepository.add_message` under the storage-failure oracle;
the third component is the number of conditional-update attempts (the
insert of a fresh bucket is not a conditional update). -/
def add_message_with_outcomes (db : ConvDb) (match_id sender_profile_id : Nat)
    (sender_name message_content : String) (outcome : Nat → Bool) :
    ConvDb × Bool × Nat :=
  match latest_bucket db match_id with
  | none =>
    (create_conversation db match_id sender_profile_id sender_name
      message_content, true, 0)
  | some lb =>
    if MESSAGES_PER_BUCKET ≤ lb.message_count then
      (db ++ [mkBucket match_id (lb.bucket_number + 1) sender_profile_id
        sender_name message_content], true, 0)
    else
      if outcome 0 then
        (updateBucket db lb (pushBucket lb sender_profile_id sender_name
          message_content), true, 1)
      else
        (db, false, 1)

/-- Counterexample for C8: a state in which the first conditional-update
attempt reports nothing modified while a retry would succeed (the oracle
fails attempt 0 only).  `handle_like` performs exactly one attempt — no
retry with fresh state — and gives up with `action=error`, leaving the
store unchanged. -/
theorem conditional_update_retry_counterexample :
    handle_like_with_outcomes
        [{ id := 1, initiator_profile_id := 10, target_profile_id := 20,
           status := MatchStatus.PENDING, initial_message := some "Hi" }]
        20 10 (some "x") (fun i => decide (i ≠ 0)) =
      ([{ id := 1, initiator_profile_id := 10, target_profile_id := 20,
          status := MatchStatus.PENDING, initial_message := some "Hi" }],
       { action := LikeAction.error }, 1) := by
  decide

/-- C8 (amended): when the conditional update reports that nothing was
modified, neither operation retries: exactly one attempt is performed, and
the failure is reported to the caller (`action=error` from `handle_like`,
`False` from `add_message`) with the store left unchanged — never a false
success. -/
theorem conditional_update_no_retry :
    (∀ (db : MatchDb) (current_profile_id target_profile_id : Nat)
        (message : Option String) (outcome : Nat → Bool) (m : MatchRecord),
      find_match db current_profile_id target_profile_id = none →
      find_match db target_profile_id current_profile_id = some m →
      m.status = MatchStatus.PENDING →
      outcome 0 = false →
      handle_like_with_outcomes db current_profile_id target_profile_id message
          outcome =
        (db, { action := LikeAction.error }, 1)) ∧
    (∀ (db : ConvDb) (match_id sender_profile_id : Nat)
        (sender_name message_content : String) (outcome : Nat → Bool)
        (lb : Bucket),
      latest_bucket db match_id = some lb →
      lb.message_count < MESSAGES_PER_BUCKET →
      outcome 0 = false →
      add_message_with_outcomes db match_id sender_profile_id sender_name
          message_content outcome =
        (db, false, 1)) := by
  constructor
  · intro db c t message outcome m hct htc hP hout
    unfold handle_like_with_outcomes
    rw [hct]
    unfold find_reverse_match
    rw [htc]
    simp only [hP, if_true, hout, Bool.false_eq_true, if_false]
  · intro db match_id s n c outcome lb hlb hcount hout
    unfold add_message_with_outcomes
    rw [hlb]
    dsimp only
    rw [if_neg (by omega), hout]
    simp

/-- Witness for C8 (amended) on concrete stores and a concrete oracle. -/
theorem conditional_update_no_retry_witness :
    handle_like_with_outcomes
        [{ id := 1, initiator_profile_id := 10, target_profile_id := 20,
           status := MatchStatus.PENDING, initial_message := some "Hi" }]
        20 10 (some "y") (fun _ => false) =
      ([{ id := 1, initiator_profile_id := 10, target_profile_id := 20,
          status := MatchStatus.PENDING, initial_message := some "Hi" }],
       { action := LikeAction.error }, 1) ∧
    add_message_with_outcomes
        [{ match_id := 5, bucket_number := 1, message_count := 1,
           messages := [{ sender_profile_id := 1, sender_name := "a",
                          content := "m1" }] }]
        5 2 "b" "m2" (fun _ => false) =
      ([{ match_id := 5, bucket_number := 1, message_count := 1,
          messages := [{ sender_profile_id := 1, sender_name := "a",
                         content := "m1" }] }], false, 1) :=
  ⟨conditional_update_no_retry.1
      [{ id := 1, initiator_profile_id := 10, target_profile_id := 20,
         status := MatchStatus.PENDING, initial_message := some "Hi" }]
      20 10 (some "y") (fun _ => false)
      { id := 1, initiator_profile_id := 10, target_profile_id := 20,
        status := MatchStatus.PENDING, initial_message := some "Hi" }
      (by decide) (by decide) (by decide) rfl,
   conditional_update_no_retry.2
      [{ match_id := 5, bucket_number := 1, message_count := 1,
         messages := [{ sender_profile_id := 1, sender_name := "a",
                        content := "m1" }] }]
      5 2 "b" "m2" (fun _ => false)
      { match_id := 5, bucket_number := 1, message_count := 1,
        messages := [{ sender_profile_id := 1, sender_name := "a",
                       content := "m1" }] }
      (by decide) (by decide) rfl⟩

end EducLove
